import Mathlib

/-!
Verification development for the betterhist repository.

The file shallowly embeds the parts of the source that the checked
claims are about:

* `src/betterhist/termsplit.py` — the two-state stream splitter
  (`TermSplit`) that partitions proxied terminal traffic into
  (user input, command output) epochs.
* `src/betterhist/listsrv.py` — the snapshot store and HTTP endpoint
  handlers (`verify_auth`, `get_item`, `search_items`, `add_item`),
  with SQLite row semantics made explicit (ascending integer ids,
  `ORDER BY id DESC` reversal, `LIMIT`, and the `LIKE` operator with
  its ASCII-case-insensitive wildcard matching).
* `src/betterhist/views.py` — the view renderer `pyte_view_one`.
  Python byte decoding (`bytes.decode(errors="ignore")`) is embedded
  concretely; the pyte virtual screen, which is an external library,
  is modelled from the specification.
* `src/betterhist/subshell.py` — the control flow of
  `Subshell.man_in_the_middle`: the iteration structure of the proxy
  loop (for the exit-status claim) and the termios save/restore
  discipline of its try/finally nesting (for the frame-effect claim).

Byte strings are modelled as `List Nat`; state is passed explicitly;
fallible handlers return `Except`.
-/

/-! ## Stream splitter (src/betterhist/termsplit.py) -/

/-- Byte strings (Python `bytes`) as lists of byte values. -/
abbrev Bytes := List Nat

/-- The splitter states, from `termsplit.py` (`class State(IntEnum)`). -/
inductive State where
  | WAIT_FOR_USER
  | WAIT_FOR_COMMAND
deriving DecidableEq, Repr

/-- The mutable fields of the `TermSplit` dataclass.  The asyncio queue
is modelled as the list of tuples emitted so far (`put_nowait` appends).
The `pid` and `master_fd` fields only feed the foreground-pgrp ioctl;
the ioctl result is abstracted into a boolean event parameter below. -/
structure TermSplit where
  state : State
  buffer : List Bytes
  queue : List (Option Bytes × Bytes)
  wait_for_user_buffer : Option Bytes
deriving DecidableEq, Repr

/-- Python `b''.join(buffer)`. -/
def bjoin (l : List Bytes) : Bytes := l.flatten

/-- Python `b'\r' in data` for the single byte CR (13). -/
def containsCR (d : Bytes) : Bool := d.contains 13

/-- The initial splitter state: `state = WAIT_FOR_USER`, empty buffer,
empty queue, `wait_for_user_buffer = None`. -/
def initTermSplit : TermSplit :=
  { state := State.WAIT_FOR_USER, buffer := [], queue := [],
    wait_for_user_buffer := none }

/-- `TermSplit._transition_command_to_user` (termsplit.py lines 32-38). -/
def transition_command_to_user (s : TermSplit) : TermSplit :=
  if s.state = State.WAIT_FOR_COMMAND then
    { state := State.WAIT_FOR_USER,
      buffer := [],
      queue := s.queue ++ [(s.wait_for_user_buffer, bjoin s.buffer)],
      wait_for_user_buffer := none }
  else s

/-- `TermSplit._edge_trigger_command_to_user` (termsplit.py lines 40-44).
`fg` is the result of the foreground-pgrp ioctl compared against the
shell pid (`foreground_pid == self.pid`). -/
def edge_trigger_command_to_user (fg : Bool) (s : TermSplit) : TermSplit :=
  if s.state = State.WAIT_FOR_COMMAND then
    if fg then transition_command_to_user s else s
  else s

/-- `TermSplit._transition_user_to_command` (termsplit.py lines 46-50). -/
def transition_user_to_command (s : TermSplit) : TermSplit :=
  if s.state = State.WAIT_FOR_USER then
    { state := State.WAIT_FOR_COMMAND,
      buffer := [],
      queue := s.queue,
      wait_for_user_buffer := some (bjoin s.buffer) }
  else s

/-- `TermSplit._edge_trigger_user_to_command` (termsplit.py lines 52-56):
fires when the foreground pgrp is NOT the shell (`foreground_pid != self.pid`). -/
def edge_trigger_user_to_command (fg : Bool) (s : TermSplit) : TermSplit :=
  if s.state = State.WAIT_FOR_USER then
    if fg then s else transition_user_to_command s
  else s

/-- `TermSplit.on_master_data` (termsplit.py lines 58-63).  Appends the
chunk, and when the state is WAIT_FOR_COMMAND calls
`_edge_trigger_user_to_command` (exactly as the source does — note that
that helper is guarded on WAIT_FOR_USER).  The Python method also
returns `True`; the returned boolean carries no state and is dropped. -/
def on_master_data (fg : Bool) (d : Bytes) (s : TermSplit) : TermSplit :=
  if s.state = State.WAIT_FOR_COMMAND then
    edge_trigger_user_to_command fg { s with buffer := s.buffer ++ [d] }
  else { s with buffer := s.buffer ++ [d] }

/-- The second statement of `TermSplit.on_stdin_data` (termsplit.py
lines 69-73), applied to the state left by the first statement: on
WAIT_FOR_USER, a CR in the chunk forces the user-to-command
transition, otherwise the edge trigger consults the foreground pgrp. -/
def on_stdin_second (fg2 : Bool) (d : Bytes) (s1 : TermSplit) : TermSplit :=
  if s1.state = State.WAIT_FOR_USER then
    if containsCR d then transition_user_to_command s1
    else edge_trigger_user_to_command fg2 s1
  else s1

/-- `TermSplit.on_stdin_data` (termsplit.py lines 65-75).  The two edge
triggers may each perform their own foreground ioctl, hence the two
boolean parameters `fg1` (first query) and `fg2` (second query). -/
def on_stdin_data (fg1 fg2 : Bool) (d : Bytes) (s : TermSplit) : TermSplit :=
  on_stdin_second fg2 d
    (if s.state = State.WAIT_FOR_COMMAND then edge_trigger_command_to_user fg1 s else s)

/-- `TermSplit.on_idle` (termsplit.py lines 77-79). -/
def on_idle (fg : Bool) (s : TermSplit) : TermSplit :=
  if s.state = State.WAIT_FOR_COMMAND then
    edge_trigger_command_to_user fg s
  else s

/-- One observed splitter input: a master chunk, a stdin chunk, or an
idle tick, each together with the foreground-ioctl results it may query. -/
inductive Event where
  | master (fg : Bool) (d : Bytes)
  | stdin (fg1 fg2 : Bool) (d : Bytes)
  | idle (fg : Bool)
deriving DecidableEq, Repr

/-- Dispatch one event to the corresponding splitter method. -/
def step (s : TermSplit) : Event → TermSplit
  | Event.master fg d => on_master_data fg d s
  | Event.stdin fg1 fg2 d => on_stdin_data fg1 fg2 d s
  | Event.idle fg => on_idle fg s

/-- Run the splitter over a sequence of events. -/
def runEvents (s : TermSplit) (es : List Event) : TermSplit :=
  es.foldl step s

/-- The splitter invariant from the data model: `pending_user_buffer`
(source name `wait_for_user_buffer`) is non-null iff the state is
WAIT_FOR_COMMAND. -/
def TermSplitInv (s : TermSplit) : Prop :=
  s.wait_for_user_buffer.isSome = true ↔ s.state = State.WAIT_FOR_COMMAND

/-- The splitter invariant together with the queue property that every
emitted tuple has a non-null user component. -/
def GoodSplit (s : TermSplit) : Prop :=
  TermSplitInv s ∧ ∀ x ∈ s.queue, x.1.isSome = true

/-! ## Snapshot store and HTTP handlers (src/betterhist/listsrv.py) -/

/-- The `Snapshot` pydantic model.  The `timestamp` field is a float in
the source; no claim computes with it, it is carried as an integer
payload here. -/
structure Snapshot where
  timestamp : Int
  columns : Int
  lines : Int
  user_view : String
  command_view : String
deriving DecidableEq, Repr

/-- Error results of the HTTP handlers: `HTTPException(status_code=401)`
from `verify_auth`, and `HTTPException(status_code=404, detail=...)`
whose detail string interpolates the current list length. -/
inductive ApiError where
  | unauthorized
  | notFound (listLength : Nat)
deriving DecidableEq, Repr

/-- The HTTP status code each `ApiError` is raised with. -/
def ApiError.statusCode : ApiError → Nat
  | ApiError.unauthorized => 401
  | ApiError.notFound _ => 404

/-- `verify_auth` (listsrv.py lines 19-26): reads `BETTERHIST_AUTH` from
the environment (`none` when unset) and the `X-Betterhist-Auth` header
(`none` when absent); `if not auth_token or x_betterhist_auth != auth_token`
rejects.  Python truthiness makes both an unset and an empty token falsy. -/
def verify_auth (envToken : Option String) (header : Option String) : Bool :=
  match envToken with
  | none => false
  | some tok => if tok = "" then false else header = some tok

/-- SQLite rows of the `items` table in insertion order: `INTEGER PRIMARY
KEY` ids are assigned 1, 2, 3, … as `add_item` inserts. -/
def withIdsFrom : Nat → List Snapshot → List (Nat × Snapshot)
  | _, [] => []
  | k, s :: rest => (k, s) :: withIdsFrom (k + 1) rest

/-- The stored rows with their SQLite ids (first row has id 1). -/
def withIds (items : List Snapshot) : List (Nat × Snapshot) :=
  withIdsFrom 1 items

/-- SQLite folds only the ASCII range for its default `LIKE`. -/
def sqliteLower (c : Char) : Char :=
  if 'A' ≤ c ∧ c ≤ 'Z' then Char.ofNat (c.toNat + 32) else c

/-- The SQLite `LIKE` operator on character lists: `%` matches any
sequence (including empty), `_` matches any single character, and other
characters compare ASCII-case-insensitively. -/
def likeMatch : List Char → List Char → Bool
  | [], [] => true
  | [], _ :: _ => false
  | p :: ps, s =>
    if p = '%' then
      likeMatch ps s ||
        (match s with
         | [] => false
         | _ :: s2 => likeMatch (p :: ps) s2)
    else
      match s with
      | [] => false
      | c :: s2 =>
        if p = '_' then likeMatch ps s2
        else sqliteLower p = sqliteLower c && likeMatch ps s2
termination_by p s => (s.length, p.length)

/-- `SearchLocation` (listsrv.py lines 28-31). -/
inductive SearchLocation where
  | user_view
  | command_view
  | both
deriving DecidableEq, Repr

/-- The WHERE clause of `search_items`: the pattern is wrapped as
`f"%{pattern}%"` and applied with `LIKE` to the selected column
(`both` is `user_view LIKE ? OR command_view LIKE ?`). -/
def matchWhere (pattern : String) (loc : SearchLocation) (s : Snapshot) : Bool :=
  let pat := '%' :: pattern.data ++ ['%']
  match loc with
  | SearchLocation.user_view => likeMatch pat s.user_view.data
  | SearchLocation.command_view => likeMatch pat s.command_view.data
  | SearchLocation.both =>
      likeMatch pat s.user_view.data || likeMatch pat s.command_view.data

/-- SQLite `LIMIT ?`: a negative limit means no limit. -/
def sqlLimit (limit : Int) (rows : List (Nat × Snapshot)) : List (Nat × Snapshot) :=
  if limit < 0 then rows else rows.take limit.toNat

/-- Default of the `limit` query parameter (`Query(10)`). -/
def search_default_limit : Int := 10

/-- Default of the `search_in` query parameter (`Query(SearchLocation.BOTH)`). -/
def search_default_search_in : SearchLocation := SearchLocation.both

/-- `ListManagerEndpoint.search_items` (listsrv.py lines 95-148) after a
successful auth dependency: `SELECT id, … FROM items WHERE <loc LIKE>
ORDER BY id DESC LIMIT ?`.  Row ids ascend in insertion order, so the
DESC ordering is the reversal of the filtered rows. -/
def search_items (items : List Snapshot) (pattern : String)
    (loc : SearchLocation) (limit : Int) : List (Nat × Snapshot) :=
  sqlLimit limit (((withIds items).filter
    (fun r => matchWhere pattern loc r.2)).reverse)

/-- `ListManagerEndpoint.get_item` (listsrv.py lines 61-93) after a
successful auth dependency.  `index >= 0` selects `ORDER BY id ASC
LIMIT 1 OFFSET index`; a negative index selects `ORDER BY id DESC
LIMIT 1 OFFSET (-index - 1)`.  No row raises
`HTTPException(404, detail=f"Index out of range for {name}, length: {list_length}")`. -/
def sqlRowAt (items : List Snapshot) (index : Int) : Option Snapshot :=
  if 0 ≤ index then (items.drop index.toNat).head?
  else (items.reverse.drop (-index - 1).toNat).head?

/-- The result construction of `get_item`: a fetched row is returned,
no row raises the 404 with the current length. -/
def get_item (items : List Snapshot) (index : Int) : Except ApiError Snapshot :=
  match sqlRowAt items index with
  | some s => Except.ok s
  | none => Except.error (ApiError.notFound items.length)

/-- `ListManagerEndpoint.add_item` (listsrv.py lines 52-59) including its
auth dependency.  Returns the new store and the reported `list_length`
(`SELECT COUNT(*)` after the insert); an auth failure raises before the
handler body runs, so the store is unchanged. -/
def add_item (envToken header : Option String) (items : List Snapshot)
    (snap : Snapshot) : List Snapshot × Except ApiError Nat :=
  if verify_auth envToken header then
    (items ++ [snap], Except.ok (items.length + 1))
  else
    (items, Except.error ApiError.unauthorized)

/-- `get_item` including its `Depends(verify_auth)` dependency. -/
def handle_get_item (envToken header : Option String) (items : List Snapshot)
    (index : Int) : Except ApiError Snapshot :=
  if verify_auth envToken header then get_item items index
  else Except.error ApiError.unauthorized

/-- `search_items` including its `Depends(verify_auth)` dependency. -/
def handle_search (envToken header : Option String) (items : List Snapshot)
    (pattern : String) (loc : SearchLocation) (limit : Int) :
    Except ApiError (List (Nat × Snapshot)) :=
  if verify_auth envToken header then Except.ok (search_items items pattern loc limit)
  else Except.error ApiError.unauthorized

/-! ## View renderer (src/betterhist/views.py)

`pyte_view_one` decodes its bytes with Python
`bytes.decode(errors="ignore")`, feeds the text to a `pyte.Screen` of
the given geometry, and keeps the non-empty rstripped display rows.
The decoder below embeds CPython UTF-8 decoding concretely; the screen
is an external library and is modelled from the specification. -/

/-- Whether a byte is a UTF-8 continuation byte (0x80-0xBF). -/
def isCont (b : Nat) : Bool := 0x80 ≤ b && b ≤ 0xBF

/-- Valid first continuation byte of a three-byte sequence: lead 0xE0
excludes overlong encodings, lead 0xED excludes surrogates. -/
def contOk3 (lead b2 : Nat) : Bool :=
  if lead = 0xE0 then 0xA0 ≤ b2 && b2 ≤ 0xBF
  else if lead = 0xED then 0x80 ≤ b2 && b2 ≤ 0x9F
  else isCont b2

/-- Valid first continuation byte of a four-byte sequence: lead 0xF0
excludes overlong encodings, lead 0xF4 caps at U+10FFFF. -/
def contOk4 (lead b2 : Nat) : Bool :=
  if lead = 0xF0 then 0x90 ≤ b2 && b2 ≤ 0xBF
  else if lead = 0xF4 then 0x80 ≤ b2 && b2 ≤ 0x8F
  else isCont b2

/-- CPython UTF-8 decoding with an error handler: a malformed maximal
subpart is replaced by `errRepl` (empty for `errors="ignore"`, a single
U+FFFD for `errors="replace"`) and decoding resynchronises.  The fuel
argument only bounds the recursion (each step consumes at least one
byte, so `data.length` is always sufficient and the zero-fuel clause is
unreachable from the wrapper below). -/
def utf8DecodeAux (errRepl : List Char) : Nat → List Nat → List Char
  | 0, _ => []
  | _ + 1, [] => []
  | fuel + 1, b :: rest =>
    if b ≤ 0x7F then Char.ofNat b :: utf8DecodeAux errRepl fuel rest
    else if 0xC2 ≤ b && b ≤ 0xDF then
      match rest with
      | [] => errRepl
      | b2 :: rest2 =>
        if isCont b2 then
          Char.ofNat ((b - 0xC0) * 64 + (b2 - 0x80)) :: utf8DecodeAux errRepl fuel rest2
        else errRepl ++ utf8DecodeAux errRepl fuel rest
    else if 0xE0 ≤ b && b ≤ 0xEF then
      match rest with
      | [] => errRepl
      | b2 :: rest2 =>
        if contOk3 b b2 then
          match rest2 with
          | [] => errRepl
          | b3 :: rest3 =>
            if isCont b3 then
              Char.ofNat ((b - 0xE0) * 4096 + (b2 - 0x80) * 64 + (b3 - 0x80)) ::
                utf8DecodeAux errRepl fuel rest3
            else errRepl ++ utf8DecodeAux errRepl fuel rest2
        else errRepl ++ utf8DecodeAux errRepl fuel rest
    else if 0xF0 ≤ b && b ≤ 0xF4 then
      match rest with
      | [] => errRepl
      | b2 :: rest2 =>
        if contOk4 b b2 then
          match rest2 with
          | [] => errRepl
          | b3 :: rest3 =>
            if isCont b3 then
              match rest3 with
              | [] => errRepl
              | b4 :: rest4 =>
                if isCont b4 then
                  Char.ofNat ((b - 0xF0) * 262144 + (b2 - 0x80) * 4096 +
                    (b3 - 0x80) * 64 + (b4 - 0x80)) :: utf8DecodeAux errRepl fuel rest4
                else errRepl ++ utf8DecodeAux errRepl fuel rest3
            else errRepl ++ utf8DecodeAux errRepl fuel rest2
        else errRepl ++ utf8DecodeAux errRepl fuel rest
    else errRepl ++ utf8DecodeAux errRepl fuel rest

/-- CPython UTF-8 decoding with an error handler, with the recursion
bound instantiated to the input length. -/
def utf8DecodeCore (errRepl : List Char) (data : List Nat) : List Char :=
  utf8DecodeAux errRepl data.length data

/-- Python `data.decode(errors="ignore")` — the decoder used by the
source: malformed sequences are dropped silently. -/
def decodeIgnore (data : List Nat) : List Char := utf8DecodeCore [] data

/-- Decoder following the specification words, for comparison with the
source: best-effort UTF-8 with invalid sequences SUBSTITUTED silently
(the standard substitution character U+FFFD). -/
def decodeSubstitute (data : List Nat) : List Char :=
  utf8DecodeCore [Char.ofNat 0xFFFD] data

/-- Modelled from the spec: the pyte virtual screen state that
`pyte_view_one` builds (the pyte library itself is not under src/).
A grid of `lines` rows plus a cursor. -/
structure Screen where
  rows : List (List Char)
  curRow : Nat
  curCol : Nat
deriving DecidableEq, Repr

/-- Write a glyph into a row at a column, padding with spaces as the
screen does for untouched cells. -/
def setCell (row : List Char) (col : Nat) (c : Char) : List Char :=
  if col < row.length then row.set col c
  else row ++ List.replicate (col - row.length) ' ' ++ [c]

/-- Modelled from the spec: line feed with scrolling — the display keeps
exactly `lines` rows, dropping the top row when the cursor would pass
the bottom. -/
def lineFeed (lines : Nat) (sc : Screen) : Screen :=
  if sc.curRow + 1 < lines then { sc with curRow := sc.curRow + 1 }
  else if sc.rows = [] then sc
  else { sc with rows := sc.rows.tail ++ [[]] }

/-- Modelled from the spec: place a glyph at the cursor and advance. -/
def writeGlyph (sc : Screen) (c : Char) : Screen :=
  { sc with
    rows := sc.rows.set sc.curRow (setCell (sc.rows.getD sc.curRow []) sc.curCol c),
    curCol := sc.curCol + 1 }

/-- Modelled from the spec: feeding one character to the virtual screen
(carriage return, line feed, and printable glyphs with wrap at
`columns`; other control characters are ignored — enough of the VT
behaviour for the rendering claims, which concern geometry and the
trimming pipeline). -/
def putChar (columns lines : Nat) (sc : Screen) (c : Char) : Screen :=
  if c = Char.ofNat 13 then { sc with curCol := 0 }
  else if c = Char.ofNat 10 then lineFeed lines sc
  else if c.toNat < 32 then sc
  else if columns ≤ sc.curCol then
    writeGlyph (lineFeed lines { sc with curCol := 0 }) c
  else writeGlyph sc c

/-- Modelled from the spec: `pyte.Screen(columns=…, lines=…)` fed with a
text (`pyte.Stream.feed`). -/
def feedChars (columns lines : Nat) (text : List Char) : Screen :=
  text.foldl (putChar columns lines)
    { rows := List.replicate lines [], curRow := 0, curCol := 0 }

/-- Modelled from the spec: `screen.display` — the visible rows of the
virtual screen after feeding the text. -/
def screenDisplay (columns lines : Nat) (text : List Char) : List String :=
  (feedChars columns lines text).rows.map (fun r => String.mk r)

/-- Python `str.rstrip()` whitespace set. -/
def pyIsSpace (c : Char) : Bool :=
  c = ' ' || c = Char.ofNat 9 || c = Char.ofNat 10 || c = Char.ofNat 13 ||
  c = Char.ofNat 11 || c = Char.ofNat 12

/-- Python `str.rstrip()` on a character list. -/
def rstripList (l : List Char) : List Char :=
  (l.reverse.dropWhile pyIsSpace).reverse

/-- Python `str.rstrip()`. -/
def rstripStr (s : String) : String := String.mk (rstripList s.data)

/-- `pyte_view_one` (views.py lines 1-6): decode with `errors="ignore"`,
feed the screen, keep the rstripped rows that are non-empty. -/
def pyte_view_one (data : List Nat) (columns lines : Nat) : List String :=
  ((screenDisplay columns lines (decodeIgnore data)).map rstripStr).filter
    (fun l => l != "")

/-- The renderer as the specification words it: identical to
`pyte_view_one` except that invalid sequences are substituted rather
than dropped. -/
def pyte_view_one_substituting (data : List Nat) (columns lines : Nat) : List String :=
  ((screenDisplay columns lines (decodeSubstitute data)).map rstripStr).filter
    (fun l => l != "")

/-! ## Byte proxy (src/betterhist/subshell.py)

`Subshell.man_in_the_middle` runs a loop guarded by
`os.waitpid(pid, WNOHANG)`; inside, each of the stdin and master tasks
may complete with data (observer callback, write, re-arm of the
reader) or with an error marker, and each failure point is an early
return.  The inner `finally` block performs a final blocking
`waitpid` when the child was not yet reaped and returns `result[1]` —
a `return` inside `finally` overrides every early return, so all exit
paths of the loop produce a waitpid status. -/

/-- The environment of one `man_in_the_middle` run: what each external
query answers at each loop iteration.  `waitpidPoll i = some st` means
the WNOHANG poll at iteration `i` reaps the child with raw status `st`;
`none` means the child is still running (pid 0).  `stdinReady` and
`masterReady` describe the pump tasks: `none` (task not yet done),
`some none` (the reader enqueued the OSError marker), `some (some d)`
(a chunk arrived).  `blockingWaitStatus` is what the final blocking
`waitpid` in the `finally` block returns. -/
structure MitmEnv where
  waitpidPoll : Nat → Option Nat
  cancelledAt : Nat → Bool
  stdinReady : Nat → Option (Option Bytes)
  masterReady : Nat → Option (Option Bytes)
  onStdinOk : Bytes → Bool
  onMasterOk : Bytes → Bool
  writeMasterOk : Nat → Bool
  writeStdinOk : Nat → Bool
  rearmStdinOk : Nat → Bool
  rearmMasterOk : Nat → Bool
  blockingWaitStatus : Nat

/-- Result of running the proxy loop for a bounded number of
iterations. -/
inductive MitmResult where
  | finished (status : Nat)
  | outOfFuel
deriving DecidableEq, Repr

/-- The master-side branch of the loop body (subshell.py lines 93-101):
on EOF/error marker, observer rejection, failed write or failed re-arm
the function returns — and the `finally` block turns that into the
blocking waitpid status.  Otherwise control continues with `k`. -/
def mitmMasterPhase (env : MitmEnv) (i : Nat) (k : Unit → MitmResult) : MitmResult :=
  match env.masterReady i with
  | none => k ()
  | some none => MitmResult.finished env.blockingWaitStatus
  | some (some d) =>
    if !env.onMasterOk d then MitmResult.finished env.blockingWaitStatus
    else if !env.writeStdinOk i then MitmResult.finished env.blockingWaitStatus
    else if !env.rearmMasterOk i then MitmResult.finished env.blockingWaitStatus
    else k ()

/-- The proxy loop of `man_in_the_middle` (subshell.py lines 76-115).
Iteration `i`: evaluate the WNOHANG guard; on reap, the `finally`
block sees `result[0] != 0` and returns that status.  A
CancelledError breaks out, and every early return path yields the
blocking waitpid status via the `finally` block.  The stdin branch
(lines 83-91) runs before the master branch. -/
def mitmLoop (env : MitmEnv) : Nat → Nat → MitmResult
  | 0, _ => MitmResult.outOfFuel
  | fuel + 1, i =>
    match env.waitpidPoll i with
    | some st => MitmResult.finished st
    | none =>
      if env.cancelledAt i then MitmResult.finished env.blockingWaitStatus
      else
        match env.stdinReady i with
        | some none => MitmResult.finished env.blockingWaitStatus
        | some (some d) =>
          if !env.onStdinOk d then MitmResult.finished env.blockingWaitStatus
          else if !env.writeMasterOk i then MitmResult.finished env.blockingWaitStatus
          else if !env.rearmStdinOk i then MitmResult.finished env.blockingWaitStatus
          else mitmMasterPhase env i (fun _ => mitmLoop env fuel (i + 1))
        | none => mitmMasterPhase env i (fun _ => mitmLoop env fuel (i + 1))

/-- A concrete proxy run used as a witness: the child stays alive for
two iterations and is reaped with status 7 at the third. -/
def mitmEnvEx : MitmEnv :=
  { waitpidPoll := fun n => if n = 2 then some 7 else none,
    cancelledAt := fun _ => false,
    stdinReady := fun _ => none,
    masterReady := fun _ => none,
    onStdinOk := fun _ => true,
    onMasterOk := fun _ => true,
    writeMasterOk := fun _ => true,
    writeStdinOk := fun _ => true,
    rearmStdinOk := fun _ => true,
    rearmMasterOk := fun _ => true,
    blockingWaitStatus := 9 }

/-! ## Termios restoration (src/betterhist/subshell.py)

`man_in_the_middle` saves the termios mode (line 68), switches the fd
to raw (line 69), and restores the saved mode both in the inner
`finally` block (line 112, with `TCSAFLUSH`) and in the outermost
`finally` block (line 117).  The exit paths differ only in which
restores run. -/

/-- The termios operations the proxy performs after saving the mode. -/
inductive TermiosOp where
  | setRawMode
  | restoreSaved
deriving DecidableEq, Repr

/-- The ways `man_in_the_middle` can exit: the loop guard sees the child
reaped; an early `return` in the body; an exception escaping the body;
an exception inside the inner `finally` before its `tcsetattr` (for
example a failing await on the cancelled pump tasks); cancellation of
the whole coroutine. -/
inductive ProxyExitPath where
  | loopCondition
  | earlyReturnInBody
  | exceptionInBody
  | exceptionInInnerFinally
  | cancelledOutside
deriving DecidableEq, Repr

/-- The sequence of termios operations executed on each exit path: raw
mode on entry, then the inner-`finally` restore (skipped only when the
inner `finally` itself raised before reaching its `tcsetattr`), then
the unconditional outer-`finally` restore. -/
def termiosOpsFor : ProxyExitPath → List TermiosOp
  | ProxyExitPath.exceptionInInnerFinally => [TermiosOp.setRawMode, TermiosOp.restoreSaved]
  | _ => [TermiosOp.setRawMode, TermiosOp.restoreSaved, TermiosOp.restoreSaved]

/-- Effect of one termios operation on the terminal state: `tty.setraw`
derives a raw mode from the current state, `tcsetattr(fd, TCSAFLUSH,
mode)` writes back the saved mode. -/
def applyTermiosOp {T : Type} (rawOf : T → T) (saved : T) (t : T) :
    TermiosOp → T
  | TermiosOp.setRawMode => rawOf t
  | TermiosOp.restoreSaved => saved

/-- The parent stdin termios state after `man_in_the_middle` exits via
path `p`, starting from state `t0` (which is also the saved mode). -/
def termiosAfterProxy {T : Type} (rawOf : T → T) (t0 : T) (p : ProxyExitPath) : T :=
  (termiosOpsFor p).foldl (applyTermiosOp rawOf t0) t0

/-! ## Claim-side definitions (written from the specification words,
for comparison against the source embeddings) -/

/-- Whether `p` occurs at the start of `s` (plain character equality). -/
def specStartsWith : List Char → List Char → Bool
  | [], _ => true
  | _ :: _, [] => false
  | p :: ps, c :: cs => p = c && specStartsWith ps cs

/-- Case-sensitive substring occurrence, as claim C2 words the search
contract. -/
def specSubstring (p : List Char) : List Char → Bool
  | [] => specStartsWith p []
  | c :: cs => specStartsWith p (c :: cs) || specSubstring p cs

/-- Case-sensitive substring on strings. -/
def caseSensitiveSubstring (pattern s : String) : Bool :=
  specSubstring pattern.data s.data

/-! ## Concrete values used by witnesses and counterexamples -/

/-- A concrete snapshot. -/
def snapA : Snapshot :=
  { timestamp := 1, columns := 80, lines := 24,
    user_view := "git status", command_view := "clean" }

/-- A concrete snapshot. -/
def snapB : Snapshot :=
  { timestamp := 2, columns := 80, lines := 24,
    user_view := "ls", command_view := "a b c" }

/-- A concrete snapshot. -/
def snapC : Snapshot :=
  { timestamp := 3, columns := 80, lines := 24,
    user_view := "grep foo", command_view := "foo" }

/-- A snapshot whose `user_view` contains only lowercase letters, for
the LIKE case-folding counterexample. -/
def snapGrep : Snapshot :=
  { timestamp := 0, columns := 80, lines := 24,
    user_view := "grep", command_view := "x" }

/-! # Theorems -/

/-! ## Splitter helper lemmas -/

theorem transition_command_to_user_of_not {t : TermSplit}
    (h : t.state ≠ State.WAIT_FOR_COMMAND) :
    transition_command_to_user t = t := by
  unfold transition_command_to_user
  simp [h]

theorem queue_transition_user_to_command (t : TermSplit) :
    (transition_user_to_command t).queue = t.queue := by
  unfold transition_user_to_command
  split <;> rfl

theorem good_transition_command_to_user {s : TermSplit} (h : GoodSplit s) :
    GoodSplit (transition_command_to_user s) := by
  obtain ⟨hinv, hq⟩ := h
  unfold transition_command_to_user
  split_ifs with hc
  · refine ⟨by simp [TermSplitInv], ?_⟩
    intro x hx
    simp only [List.mem_append, List.mem_singleton] at hx
    rcases hx with hx | hx
    · exact hq x hx
    · subst hx
      exact hinv.mpr hc
  · exact ⟨hinv, hq⟩

theorem good_transition_user_to_command {s : TermSplit} (h : GoodSplit s) :
    GoodSplit (transition_user_to_command s) := by
  obtain ⟨hinv, hq⟩ := h
  unfold transition_user_to_command
  split_ifs with hc
  · exact ⟨by simp [TermSplitInv], hq⟩
  · exact ⟨hinv, hq⟩

theorem good_edge_trigger_command_to_user {s : TermSplit} (fg : Bool)
    (h : GoodSplit s) : GoodSplit (edge_trigger_command_to_user fg s) := by
  unfold edge_trigger_command_to_user
  split_ifs <;> first
    | exact good_transition_command_to_user h
    | exact h

theorem good_edge_trigger_user_to_command {s : TermSplit} (fg : Bool)
    (h : GoodSplit s) : GoodSplit (edge_trigger_user_to_command fg s) := by
  unfold edge_trigger_user_to_command
  split_ifs <;> first
    | exact good_transition_user_to_command h
    | exact h

theorem good_on_master_data {s : TermSplit} (fg : Bool) (d : Bytes)
    (h : GoodSplit s) : GoodSplit (on_master_data fg d s) := by
  unfold on_master_data
  have hbuf : GoodSplit { s with buffer := s.buffer ++ [d] } := h
  split_ifs
  · exact good_edge_trigger_user_to_command fg hbuf
  · exact hbuf

theorem good_on_stdin_second {s1 : TermSplit} (fg2 : Bool) (d : Bytes)
    (h : GoodSplit s1) : GoodSplit (on_stdin_second fg2 d s1) := by
  unfold on_stdin_second
  split_ifs
  · exact good_transition_user_to_command h
  · exact good_edge_trigger_user_to_command fg2 h
  · exact h

theorem good_on_stdin_data {s : TermSplit} (fg1 fg2 : Bool) (d : Bytes)
    (h : GoodSplit s) : GoodSplit (on_stdin_data fg1 fg2 d s) := by
  unfold on_stdin_data
  apply good_on_stdin_second
  split_ifs
  · exact good_edge_trigger_command_to_user fg1 h
  · exact h

theorem good_on_idle {s : TermSplit} (fg : Bool)
    (h : GoodSplit s) : GoodSplit (on_idle fg s) := by
  unfold on_idle
  split_ifs
  · exact good_edge_trigger_command_to_user fg h
  · exact h

theorem good_step {s : TermSplit} (e : Event)
    (h : GoodSplit s) : GoodSplit (step s e) := by
  cases e with
  | master fg d => exact good_on_master_data fg d h
  | stdin fg1 fg2 d => exact good_on_stdin_data fg1 fg2 d h
  | idle fg => exact good_on_idle fg h

theorem good_runEvents {s : TermSplit} (es : List Event)
    (h : GoodSplit s) : GoodSplit (runEvents s es) := by
  induction es generalizing s with
  | nil => exact h
  | cons e rest ih => exact ih (good_step e h)

theorem good_initTermSplit : GoodSplit initTermSplit := by
  constructor
  · simp [TermSplitInv, initTermSplit]
  · intro x hx
    simp [initTermSplit] at hx

theorem queue_suffix_transition_command_to_user (t : TermSplit) :
    ∃ tail, (transition_command_to_user t).queue = t.queue ++ tail := by
  unfold transition_command_to_user
  split_ifs
  · exact ⟨[(t.wait_for_user_buffer, bjoin t.buffer)], rfl⟩
  · exact ⟨[], by simp⟩

theorem queue_suffix_edge_trigger_command_to_user (fg : Bool) (t : TermSplit) :
    ∃ tail, (edge_trigger_command_to_user fg t).queue = t.queue ++ tail := by
  unfold edge_trigger_command_to_user
  split_ifs
  · exact queue_suffix_transition_command_to_user t
  · exact ⟨[], by simp⟩
  · exact ⟨[], by simp⟩

theorem queue_suffix_edge_trigger_user_to_command (fg : Bool) (t : TermSplit) :
    ∃ tail, (edge_trigger_user_to_command fg t).queue = t.queue ++ tail := by
  unfold edge_trigger_user_to_command
  split_ifs
  · exact ⟨[], by simp⟩
  · exact ⟨[], by simp [queue_transition_user_to_command]⟩
  · exact ⟨[], by simp⟩

theorem queue_suffix_on_stdin_second (fg2 : Bool) (d : Bytes) (t : TermSplit) :
    ∃ tail, (on_stdin_second fg2 d t).queue = t.queue ++ tail := by
  unfold on_stdin_second
  split_ifs
  · exact ⟨[], by rw [queue_transition_user_to_command]; simp⟩
  · exact queue_suffix_edge_trigger_user_to_command fg2 t
  · exact ⟨[], by simp⟩

theorem queue_suffix_step (t : TermSplit) (e : Event) :
    ∃ tail, (step t e).queue = t.queue ++ tail := by
  cases e with
  | master fg d =>
    show ∃ tail, (on_master_data fg d t).queue = t.queue ++ tail
    unfold on_master_data
    split_ifs
    · obtain ⟨tail, htail⟩ :=
        queue_suffix_edge_trigger_user_to_command fg
          { t with buffer := t.buffer ++ [d] }
      exact ⟨tail, htail⟩
    · exact ⟨[], by simp⟩
  | stdin fg1 fg2 d =>
    show ∃ tail, (on_stdin_data fg1 fg2 d t).queue = t.queue ++ tail
    unfold on_stdin_data
    have h1 : ∃ tail1, (if t.state = State.WAIT_FOR_COMMAND
        then edge_trigger_command_to_user fg1 t else t).queue = t.queue ++ tail1 := by
      split_ifs
      · exact queue_suffix_edge_trigger_command_to_user fg1 t
      · exact ⟨[], by simp⟩
    obtain ⟨tail1, h1⟩ := h1
    obtain ⟨tail2, h2⟩ := queue_suffix_on_stdin_second fg2 d
      (if t.state = State.WAIT_FOR_COMMAND then edge_trigger_command_to_user fg1 t else t)
    exact ⟨tail1 ++ tail2, by rw [h2, h1, List.append_assoc]⟩
  | idle fg =>
    show ∃ tail, (on_idle fg t).queue = t.queue ++ tail
    unfold on_idle
    split_ifs
    · exact queue_suffix_edge_trigger_command_to_user fg t
    · exact ⟨[], by simp⟩

/-! ## Claim theorems for the stream splitter -/

/-- C5: at every reachable splitter state, `pending_user_buffer`
(source: `wait_for_user_buffer`) is non-null iff the state is
WAIT_FOR_COMMAND; every emitted tuple has a non-null user component;
tuples are emitted only by the WAIT_FOR_COMMAND → WAIT_FOR_USER
transition (all other operations leave the queue unchanged up to that
transition, and the queue is append-only); and at a reachable
WAIT_FOR_COMMAND state, that transition moves to WAIT_FOR_USER and
emits exactly the pending tuple, whose user component is non-null. -/
theorem termsplit_emission_invariant (es : List Event) :
    TermSplitInv (runEvents initTermSplit es) ∧
    (∀ x ∈ (runEvents initTermSplit es).queue, x.1.isSome = true) ∧
    (∀ t : TermSplit, t.state ≠ State.WAIT_FOR_COMMAND →
      transition_command_to_user t = t) ∧
    (∀ t : TermSplit, (transition_user_to_command t).queue = t.queue) ∧
    (∀ t : TermSplit, ∀ e : Event, ∃ tail, (step t e).queue = t.queue ++ tail) ∧
    ((runEvents initTermSplit es).state = State.WAIT_FOR_COMMAND →
      (transition_command_to_user (runEvents initTermSplit es)).state =
          State.WAIT_FOR_USER ∧
      (transition_command_to_user (runEvents initTermSplit es)).queue =
        (runEvents initTermSplit es).queue ++
          [((runEvents initTermSplit es).wait_for_user_buffer,
            bjoin (runEvents initTermSplit es).buffer)] ∧
      (runEvents initTermSplit es).wait_for_user_buffer.isSome = true) := by
  have hgood := good_runEvents es good_initTermSplit
  refine ⟨hgood.1, hgood.2, ?_, queue_transition_user_to_command, queue_suffix_step, ?_⟩
  · intro t ht
    exact transition_command_to_user_of_not ht
  · intro hc
    refine ⟨?_, ?_, hgood.1.mpr hc⟩
    · unfold transition_command_to_user
      simp [hc]
    · unfold transition_command_to_user
      simp [hc]

/-- Witness for C5 at the concrete event sequence consisting of a
single stdin chunk containing CR. -/
theorem termsplit_emission_invariant_witness :
    TermSplitInv (runEvents initTermSplit [Event.stdin true true [13]]) ∧
    (transition_command_to_user
        (runEvents initTermSplit [Event.stdin true true [13]])).state =
      State.WAIT_FOR_USER ∧
    (runEvents initTermSplit
        [Event.stdin true true [13]]).wait_for_user_buffer.isSome = true := by
  have h := termsplit_emission_invariant [Event.stdin true true [13]]
  have hc : (runEvents initTermSplit [Event.stdin true true [13]]).state =
      State.WAIT_FOR_COMMAND := by decide
  exact ⟨h.1, (h.2.2.2.2.2 hc).1, (h.2.2.2.2.2 hc).2.2⟩

/-- C1 (code bug witness): from the reachable state obtained after a CR
on stdin (state WAIT_FOR_COMMAND, pending user buffer held),
`on_master_data` with the shell in the foreground appends the chunk but
emits nothing and stays in WAIT_FOR_COMMAND — the source calls
`_edge_trigger_user_to_command`, which is a no-op in that state,
instead of `_edge_trigger_command_to_user`. -/
theorem on_master_data_never_emits :
    (runEvents initTermSplit [Event.stdin true true [13]]).state =
        State.WAIT_FOR_COMMAND ∧
    (step (runEvents initTermSplit [Event.stdin true true [13]])
        (Event.master true [111])).state = State.WAIT_FOR_COMMAND ∧
    (step (runEvents initTermSplit [Event.stdin true true [13]])
        (Event.master true [111])).queue = [] ∧
    (step (runEvents initTermSplit [Event.stdin true true [13]])
        (Event.master true [111])).buffer = [[111]] := by
  decide

/-- C4 counterexample: in WAIT_FOR_USER, a stdin chunk containing CR
moves the (empty) accumulated buffer to `pending_user_buffer` WITHOUT
appending the chunk, so the captured user buffer does not contain the
bytes of the chunk, contrary to the claim that the emitted user buffer
includes them. -/
theorem on_stdin_cr_excludes_chunk :
    (step initTermSplit (Event.stdin true true [104, 105, 13])).state =
        State.WAIT_FOR_COMMAND ∧
    (step initTermSplit
        (Event.stdin true true [104, 105, 13])).wait_for_user_buffer =
      some [] ∧
    some ([] : Bytes) ≠ some [104, 105, 13] := by
  decide

/-- C4 (amended): in WAIT_FOR_USER, a stdin chunk containing a CR byte
moves the accumulated buffer contents — not including the chunk itself —
to `pending_user_buffer`, clears the buffer, keeps the queue unchanged,
and transitions to WAIT_FOR_COMMAND. -/
theorem on_stdin_data_cr_amended (s : TermSplit) (fg1 fg2 : Bool) (d : Bytes)
    (hs : s.state = State.WAIT_FOR_USER) (hd : containsCR d = true) :
    on_stdin_data fg1 fg2 d s =
      { state := State.WAIT_FOR_COMMAND, buffer := [], queue := s.queue,
        wait_for_user_buffer := some (bjoin s.buffer) } := by
  unfold on_stdin_data on_stdin_second
  have hns : s.state ≠ State.WAIT_FOR_COMMAND := by
    rw [hs]; intro h; cases h
  rw [if_neg hns]
  rw [if_pos hs, if_pos hd]
  unfold transition_user_to_command
  rw [if_pos hs]

/-- Witness for the amended C4 at a concrete state with a non-empty
accumulated buffer. -/
theorem on_stdin_data_cr_amended_witness :
    on_stdin_data true true [13]
        { state := State.WAIT_FOR_USER, buffer := [[108, 115]], queue := [],
          wait_for_user_buffer := none } =
      { state := State.WAIT_FOR_COMMAND, buffer := [], queue := [],
        wait_for_user_buffer := some [108, 115] } := by
  have h := on_stdin_data_cr_amended
    { state := State.WAIT_FOR_USER, buffer := [[108, 115]], queue := [],
      wait_for_user_buffer := none } true true [13] rfl (by decide)
  simpa [bjoin] using h

/-! ## Store helper lemmas -/

theorem mem_withIdsFrom_le {x : Nat × Snapshot} :
    ∀ {k : Nat} {l : List Snapshot}, x ∈ withIdsFrom k l → k ≤ x.1 := by
  intro k l
  induction l generalizing k with
  | nil => intro h; simp [withIdsFrom] at h
  | cons s rest ih =>
    intro h
    simp only [withIdsFrom, List.mem_cons] at h
    rcases h with h | h
    · subst h; exact Nat.le_refl k
    · exact Nat.le_trans (Nat.le_succ k) (ih h)

theorem pairwise_withIdsFrom (k : Nat) (l : List Snapshot) :
    List.Pairwise (fun a b => a.1 < b.1) (withIdsFrom k l) := by
  induction l generalizing k with
  | nil => exact List.Pairwise.nil
  | cons s rest ih =>
    refine List.Pairwise.cons ?_ (ih (k + 1))
    intro x hx
    exact Nat.lt_of_lt_of_le (Nat.lt_succ_self k) (mem_withIdsFrom_le hx)

theorem pairwise_withIds (l : List Snapshot) :
    List.Pairwise (fun a b => a.1 < b.1) (withIds l) :=
  pairwise_withIdsFrom 1 l

theorem sqlRowAt_last {items : List Snapshot} {s : Snapshot}
    (hlast : items.getLast? = some s) : sqlRowAt items (-1) = some s := by
  unfold sqlRowAt
  rw [if_neg (by omega)]
  have h0 : (-(-1 : Int) - 1).toNat = 0 := by omega
  rw [h0, List.drop_zero, List.head?_reverse, hlast]

theorem sqlRowAt_wraparound {items : List Snapshot} {i : Int}
    (h0 : 0 ≤ i) (hlen : i < (items.length : Int)) :
    sqlRowAt items i = sqlRowAt items (i - items.length) := by
  unfold sqlRowAt
  rw [if_pos h0, if_neg (by omega)]
  have hi : i.toNat < items.length := by omega
  have h2 : (-(i - (items.length : Int)) - 1).toNat = items.length - 1 - i.toNat := by
    omega
  rw [h2, List.head?_drop, List.head?_drop,
    List.getElem?_reverse (by omega)]
  congr 1
  omega

theorem sqlRowAt_out_of_range {items : List Snapshot} {i : Int}
    (h : i < -(items.length : Int) ∨ (items.length : Int) ≤ i) :
    sqlRowAt items i = none := by
  unfold sqlRowAt
  rcases h with h | h
  · rw [if_neg (by omega)]
    rw [List.drop_eq_nil_of_le (by simp; omega)]
    rfl
  · rw [if_pos (by omega)]
    rw [List.drop_eq_nil_of_le (by omega)]
    rfl

/-! ## Claim theorems for the snapshot store -/

/-- C3: for a store of `len` appended snapshots, `get(-1)` returns the
most recently appended snapshot; for `0 ≤ i < len`, `get(i)` equals
`get(i - len)`; and for any index outside `[-len, len-1]`, `get` fails
with the 404 out-of-range error carrying the current length. -/
theorem get_item_indexing (items : List Snapshot) :
    (∀ s : Snapshot, items.getLast? = some s →
      get_item items (-1) = Except.ok s) ∧
    (∀ i : Int, 0 ≤ i → i < (items.length : Int) →
      get_item items i = get_item items (i - items.length)) ∧
    (∀ i : Int, i < -(items.length : Int) ∨ (items.length : Int) ≤ i →
      get_item items i = Except.error (ApiError.notFound items.length) ∧
      (ApiError.notFound items.length).statusCode = 404) := by
  refine ⟨?_, ?_, ?_⟩
  · intro s hlast
    unfold get_item
    rw [sqlRowAt_last hlast]
  · intro i h0 hlen
    unfold get_item
    rw [sqlRowAt_wraparound h0 hlen]
  · intro i h
    refine ⟨?_, rfl⟩
    unfold get_item
    rw [sqlRowAt_out_of_range h]

/-- Witness for C3 on a concrete three-element store. -/
theorem get_item_indexing_witness :
    get_item [snapA, snapB, snapC] (-1) = Except.ok snapC ∧
    get_item [snapA, snapB, snapC] 1 = get_item [snapA, snapB, snapC] (-2) ∧
    get_item [snapA, snapB, snapC] 5 =
      Except.error (ApiError.notFound 3) := by
  have h := get_item_indexing [snapA, snapB, snapC]
  refine ⟨h.1 snapC (by decide), ?_, ?_⟩
  · have := h.2.1 1 (by decide) (by decide)
    simpa using this
  · have := (h.2.2 5 (by right; decide)).1
    simpa using this

/-- C2 counterexample: SQLite `LIKE` folds ASCII case, so
`search("G", both, 10)` on a store holding one snapshot with
`user_view = "grep"` and `command_view = "x"` returns that snapshot even
though `"G"` is not a case-sensitive substring of either field. -/
theorem search_like_case_fold_cex :
    search_items [snapGrep] "G" SearchLocation.both 10 = [(1, snapGrep)] ∧
    caseSensitiveSubstring "G" snapGrep.user_view = false ∧
    caseSensitiveSubstring "G" snapGrep.command_view = false := by
  refine ⟨?_, by decide, by decide⟩
  simp [search_items, withIds, withIdsFrom, matchWhere, sqlLimit, snapGrep,
    likeMatch, sqliteLower]

/-- C2 (amended): for non-negative `limit`, `search` returns at most
`limit` rows; every returned row is a stored row whose selected field
matches the pattern under SQLite `LIKE` semantics (ASCII-case-
insensitive, `%`/`_` wildcards, the pattern wrapped in `%…%`; `both`
matches either field); rows are ordered most-recent-first (strictly
descending ids); a matching stored row is left out only when the result
is already full at `limit` rows; defaults are `limit = 10` and
`search_in = both`. -/
theorem search_items_amended (items : List Snapshot) (pattern : String)
    (loc : SearchLocation) (limit : Int) (hlim : 0 ≤ limit) :
    ((search_items items pattern loc limit).length : Int) ≤ limit ∧
    (∀ r ∈ search_items items pattern loc limit,
      r ∈ withIds items ∧ matchWhere pattern loc r.2 = true) ∧
    List.Pairwise (fun a b => b.1 < a.1)
      (search_items items pattern loc limit) ∧
    (∀ r ∈ withIds items, matchWhere pattern loc r.2 = true →
      r ∉ search_items items pattern loc limit →
      (search_items items pattern loc limit).length = limit.toNat) ∧
    search_default_limit = 10 ∧
    search_default_search_in = SearchLocation.both := by
  have h33 : ¬(limit < 0) := by omega
  refine ⟨?_, ?_, ?_, ?_, rfl, rfl⟩
  · unfold search_items sqlLimit
    rw [if_neg h33]
    simp only [List.length_take]
    omega
  · intro r hr
    unfold search_items sqlLimit at hr
    rw [if_neg h33] at hr
    have hr2 := List.mem_of_mem_take hr
    rw [List.mem_reverse, List.mem_filter] at hr2
    exact ⟨hr2.1, hr2.2⟩
  · unfold search_items sqlLimit
    rw [if_neg h33]
    refine List.Pairwise.sublist (List.take_sublist _ _) ?_
    rw [List.pairwise_reverse]
    exact List.Pairwise.filter _ (pairwise_withIds items)
  · intro r hrmem hrmatch hrnot
    unfold search_items sqlLimit at hrnot ⊢
    rw [if_neg h33] at hrnot ⊢
    have hrin : r ∈ ((withIds items).filter
        (fun x => matchWhere pattern loc x.2)).reverse := by
      rw [List.mem_reverse, List.mem_filter]
      exact ⟨hrmem, hrmatch⟩
    by_cases hle : ((withIds items).filter
        (fun x => matchWhere pattern loc x.2)).reverse.length ≤ limit.toNat
    · exact absurd (by rwa [List.take_of_length_le hle]) hrnot
    · simp only [List.length_take]
      omega

/-- Witness for the amended C2: searching three snapshots for `"g"` with
`both` and limit 10 returns the `grep foo` then `git status` rows,
most-recent-first, and excludes `ls`. -/
theorem search_items_amended_witness :
    ((search_items [snapA, snapB, snapC] "g" SearchLocation.both 10).length : Int) ≤ 10 ∧
    search_items [snapA, snapB, snapC] "g" SearchLocation.both 10 =
      [(3, snapC), (1, snapA)] := by
  constructor
  · exact (search_items_amended [snapA, snapB, snapC] "g"
      SearchLocation.both 10 (by decide)).1
  · simp [search_items, withIds, withIdsFrom, matchWhere, sqlLimit,
      snapA, snapB, snapC, likeMatch, sqliteLower]

/-! ## Claim theorems for authentication -/

/-- C8: with the session token minted (set and non-empty), any request
whose `X-Betterhist-Auth` header is missing or different from that
token is rejected by every endpoint with status 401, and the store is
not modified. -/
theorem auth_required (tok : String) (header : Option String)
    (items : List Snapshot) (snap : Snapshot) (index : Int)
    (pattern : String) (loc : SearchLocation) (limit : Int)
    (htok : tok ≠ "") (hheader : header ≠ some tok) :
    (add_item (some tok) header items snap).1 = items ∧
    (add_item (some tok) header items snap).2 =
      Except.error ApiError.unauthorized ∧
    handle_get_item (some tok) header items index =
      Except.error ApiError.unauthorized ∧
    handle_search (some tok) header items pattern loc limit =
      Except.error ApiError.unauthorized ∧
    ApiError.unauthorized.statusCode = 401 := by
  have hv : verify_auth (some tok) header = false := by
    simp [verify_auth, htok, hheader]
  refine ⟨?_, ?_, ?_, ?_, rfl⟩
  · unfold add_item; rw [hv]; rfl
  · unfold add_item; rw [hv]; rfl
  · unfold handle_get_item; rw [hv]; rfl
  · unfold handle_search; rw [hv]; rfl

/-- Witness for C8: concrete token `"t"`, absent header. -/
theorem auth_required_witness :
    (add_item (some "t") none [snapA] snapB).1 = [snapA] ∧
    (add_item (some "t") none [snapA] snapB).2 =
      Except.error ApiError.unauthorized ∧
    handle_get_item (some "t") none [snapA] 0 =
      Except.error ApiError.unauthorized ∧
    handle_search (some "t") none [snapA] "a" SearchLocation.both 10 =
      Except.error ApiError.unauthorized ∧
    ApiError.unauthorized.statusCode = 401 :=
  auth_required "t" none [snapA] snapB 0 "a" SearchLocation.both 10
    (by decide) (by decide)

/-- C10: when `BETTERHIST_AUTH` is unset or empty at request time, every
endpoint rejects every request with 401 — whatever header the client
presents — and the store is not modified. -/
theorem auth_rejects_when_env_unset (envToken header : Option String)
    (items : List Snapshot) (snap : Snapshot) (index : Int)
    (pattern : String) (loc : SearchLocation) (limit : Int)
    (henv : envToken = none ∨ envToken = some "") :
    (add_item envToken header items snap).1 = items ∧
    (add_item envToken header items snap).2 =
      Except.error ApiError.unauthorized ∧
    handle_get_item envToken header items index =
      Except.error ApiError.unauthorized ∧
    handle_search envToken header items pattern loc limit =
      Except.error ApiError.unauthorized ∧
    ApiError.unauthorized.statusCode = 401 := by
  have hv : verify_auth envToken header = false := by
    rcases henv with h | h <;> subst h <;> simp [verify_auth]
  refine ⟨?_, ?_, ?_, ?_, rfl⟩
  · unfold add_item; rw [hv]; rfl
  · unfold add_item; rw [hv]; rfl
  · unfold handle_get_item; rw [hv]; rfl
  · unfold handle_search; rw [hv]; rfl

/-- Witness for C10: unset token, a client presenting an arbitrary
header value. -/
theorem auth_rejects_when_env_unset_witness :
    (add_item none (some "anything") [snapA] snapB).1 = [snapA] ∧
    (add_item none (some "anything") [snapA] snapB).2 =
      Except.error ApiError.unauthorized ∧
    handle_get_item none (some "anything") [snapA] 0 =
      Except.error ApiError.unauthorized ∧
    handle_search none (some "anything") [snapA] "a" SearchLocation.both 10 =
      Except.error ApiError.unauthorized ∧
    ApiError.unauthorized.statusCode = 401 :=
  auth_rejects_when_env_unset none (some "anything") [snapA] snapB 0 "a"
    SearchLocation.both 10 (Or.inl rfl)

/-! ## Renderer helper lemmas -/

theorem rows_length_lineFeed (lines : Nat) (sc : Screen) :
    (lineFeed lines sc).rows.length = sc.rows.length := by
  unfold lineFeed
  split_ifs with h1 h2
  · rfl
  · rfl
  · have hne : sc.rows.length ≠ 0 := by
      simpa [List.length_eq_zero] using h2
    simp only [List.length_append, List.length_tail, List.length_cons,
      List.length_nil]
    omega

theorem rows_length_writeGlyph (sc : Screen) (c : Char) :
    (writeGlyph sc c).rows.length = sc.rows.length := by
  unfold writeGlyph
  simp

theorem rows_length_putChar (columns lines : Nat) (sc : Screen) (c : Char) :
    (putChar columns lines sc c).rows.length = sc.rows.length := by
  unfold putChar
  split_ifs
  · rfl
  · exact rows_length_lineFeed lines sc
  · rfl
  · rw [rows_length_writeGlyph, rows_length_lineFeed]
  · rw [rows_length_writeGlyph]

theorem rows_length_foldl_putChar (columns lines : Nat) (text : List Char)
    (sc : Screen) :
    (text.foldl (putChar columns lines) sc).rows.length = sc.rows.length := by
  induction text generalizing sc with
  | nil => rfl
  | cons c rest ih =>
    rw [List.foldl_cons, ih, rows_length_putChar]

theorem screenDisplay_length (columns lines : Nat) (text : List Char) :
    (screenDisplay columns lines text).length = lines := by
  unfold screenDisplay feedChars
  rw [List.length_map, rows_length_foldl_putChar]
  simp

theorem dropWhile_idem {α : Type} (p : α → Bool) (l : List α) :
    (l.dropWhile p).dropWhile p = l.dropWhile p := by
  induction l with
  | nil => rfl
  | cons a rest ih =>
    by_cases h : p a = true
    · simp [List.dropWhile_cons, h, ih]
    · simp [List.dropWhile_cons, h]

theorem rstripList_idem (l : List Char) :
    rstripList (rstripList l) = rstripList l := by
  unfold rstripList
  rw [List.reverse_reverse, dropWhile_idem]

theorem rstripStr_idem (s : String) : rstripStr (rstripStr s) = rstripStr s := by
  unfold rstripStr
  have hdata : (String.mk (rstripList s.data)).data = rstripList s.data := rfl
  rw [hdata, rstripList_idem]

/-! ## Claim theorems for the view renderer -/

/-- C6 (amended): `pyte_view_one` decodes the bytes as best-effort
UTF-8 with invalid sequences DROPPED silently, feeds them to a virtual
screen of the given geometry, and returns the right-trimmed display
rows omitting rows that become empty (the caller newline-joins them);
the number of returned rows is at most `lines`, and every returned row
is non-empty and right-trimmed. -/
theorem pyte_view_one_amended (data : List Nat) (columns lines : Nat) :
    pyte_view_one data columns lines =
      ((screenDisplay columns lines (decodeIgnore data)).map rstripStr).filter
        (fun l => l != "") ∧
    (pyte_view_one data columns lines).length ≤ lines ∧
    ∀ r ∈ pyte_view_one data columns lines, r ≠ "" ∧ rstripStr r = r := by
  refine ⟨rfl, ?_, ?_⟩
  · calc (pyte_view_one data columns lines).length
        ≤ ((screenDisplay columns lines (decodeIgnore data)).map rstripStr).length :=
          List.length_filter_le _ _
      _ = lines := by rw [List.length_map, screenDisplay_length]
  · intro r hr
    unfold pyte_view_one at hr
    rw [List.mem_filter] at hr
    obtain ⟨hmem, hne⟩ := hr
    rw [List.mem_map] at hmem
    obtain ⟨raw, _, hraw⟩ := hmem
    refine ⟨by simpa using hne, ?_⟩
    rw [← hraw, rstripStr_idem]

/-- C6 counterexample for the decoding mode: on the byte string
`b"A\xffB"` the source renderer (decode errors="ignore") yields the row
`"AB"`, while the specification words (invalid sequences substituted
silently) yield `"A�B"` — the two disagree. -/
theorem pyte_view_one_decode_cex :
    pyte_view_one [65, 255, 66] 80 24 = [String.mk [Char.ofNat 65, Char.ofNat 66]] ∧
    pyte_view_one_substituting [65, 255, 66] 80 24 =
      [String.mk [Char.ofNat 65, Char.ofNat 65533, Char.ofNat 66]] ∧
    String.mk [Char.ofNat 65, Char.ofNat 66] ≠
      String.mk [Char.ofNat 65, Char.ofNat 65533, Char.ofNat 66] := by
  refine ⟨?_, ?_, by decide⟩ <;> decide

/-! ## Claim theorems for the byte proxy -/

theorem mitmMasterPhase_cases (env : MitmEnv) (i : Nat) (k : Unit → MitmResult) :
    mitmMasterPhase env i k = k () ∨
    mitmMasterPhase env i k = MitmResult.finished env.blockingWaitStatus := by
  unfold mitmMasterPhase
  rcases env.masterReady i with _ | d
  · exact Or.inl rfl
  · rcases d with _ | d2
    · exact Or.inr rfl
    · dsimp only
      split_ifs <;> first | exact Or.inl rfl | exact Or.inr rfl

/-- C7: whenever the proxy loop of `man_in_the_middle` finishes, the
value it returns is a waited-for child status: either the raw status
reaped by a WNOHANG poll of `os.waitpid`, or the status of the final
blocking `os.waitpid` performed in the `finally` block — so the
operation waits for the child and returns the child's exit status on
every exit path (early returns, observer rejection, failed writes,
cancellation included). -/
theorem man_in_the_middle_returns_wait_status (env : MitmEnv) :
    ∀ (fuel i st : Nat), mitmLoop env fuel i = MitmResult.finished st →
    (∃ n, env.waitpidPoll n = some st) ∨ st = env.blockingWaitStatus := by
  intro fuel
  induction fuel with
  | zero =>
    intro i st h
    simp [mitmLoop] at h
  | succ fuel ih =>
    intro i st h
    unfold mitmLoop at h
    rcases hp : env.waitpidPoll i with _ | st2
    · rw [hp] at h
      dsimp only at h
      by_cases hc : env.cancelledAt i = true
      · rw [if_pos hc] at h
        injection h with h2
        exact Or.inr h2.symm
      · rw [if_neg hc] at h
        rcases hs : env.stdinReady i with _ | d
        · rw [hs] at h
          dsimp only at h
          rcases mitmMasterPhase_cases env i
              (fun _ => mitmLoop env fuel (i + 1)) with hk | hk
          · rw [hk] at h
            exact ih (i + 1) st h
          · rw [hk] at h
            injection h with h2
            exact Or.inr h2.symm
        · rw [hs] at h
          rcases d with _ | d2
          · dsimp only at h
            injection h with h2
            exact Or.inr h2.symm
          · dsimp only at h
            by_cases h1 : (!env.onStdinOk d2) = true
            · rw [if_pos h1] at h
              injection h with h2
              exact Or.inr h2.symm
            · rw [if_neg h1] at h
              by_cases h2c : (!env.writeMasterOk i) = true
              · rw [if_pos h2c] at h
                injection h with h2
                exact Or.inr h2.symm
              · rw [if_neg h2c] at h
                by_cases h3c : (!env.rearmStdinOk i) = true
                · rw [if_pos h3c] at h
                  injection h with h2
                  exact Or.inr h2.symm
                · rw [if_neg h3c] at h
                  rcases mitmMasterPhase_cases env i
                      (fun _ => mitmLoop env fuel (i + 1)) with hk | hk
                  · rw [hk] at h
                    exact ih (i + 1) st h
                  · rw [hk] at h
                    injection h with h2
                    exact Or.inr h2.symm
    · rw [hp] at h
      dsimp only at h
      injection h with h2
      subst h2
      exact Or.inl ⟨i, hp⟩

/-- Witness for C7: the concrete environment `mitmEnvEx`, whose child is
reaped with status 7 at the third iteration. -/
theorem man_in_the_middle_returns_wait_status_witness :
    (∃ n, mitmEnvEx.waitpidPoll n = some 7) ∨ 7 = mitmEnvEx.blockingWaitStatus :=
  man_in_the_middle_returns_wait_status mitmEnvEx 5 0 7 (by decide)

/-! ## Claim theorems for termios restoration -/

/-- C9: on every exit path of `man_in_the_middle` — loop completion,
early return, exception in the body, exception inside the inner
`finally`, cancellation — the parent stdin termios state after exit
equals the state saved before entry, and the restoring `tcsetattr` is
idempotent (restoring twice equals restoring once). -/
theorem termios_restored_on_all_paths {T : Type} (rawOf : T → T) (t0 : T)
    (p : ProxyExitPath) :
    termiosAfterProxy rawOf t0 p = t0 ∧
    (∀ t : T, applyTermiosOp rawOf t0
        (applyTermiosOp rawOf t0 t TermiosOp.restoreSaved) TermiosOp.restoreSaved =
      applyTermiosOp rawOf t0 t TermiosOp.restoreSaved) := by
  constructor
  · cases p <;> rfl
  · intro t
    rfl
